import Mathlib

/-!
Shallow embedding of the voice-channel signaling server of this repository
(the files src/server/index.js and src/server/voiceManager.js).

JavaScript Maps become association lists with Map.get / Map.set / Map.delete
semantics (keys are unique in a Map, so deletion removes every entry with the
key and in-place update rewrites every entry with the key; on well-formed
states the two coincide with the JavaScript behaviour).  socket.io rooms
become an explicit channelId -> members table maintained by socket.join,
socket.leave and the automatic removal on disconnect (socket.io keeps no
empty rooms).  Every socket.io event emitted by a handler is recorded in an
event trace, one trace element per receiving socket for targeted emits.

Identifiers minted by the SFU library (transport / producer / consumer ids)
are passed to the operations as arguments, and the router's canConsume
verdict is an explicit boolean input; the media-plane objects themselves
(workers, DTLS, RTP parameters) are outside the orchestrator state and are
not modelled beyond the bookkeeping the server performs.  The direction
argument of create-transport is recorded in the transport entry purely as
bookkeeping: the server only logs it, and no operation reads it.
-/

namespace DC

/-- Lookup in an association list, mirroring JavaScript Map.get. -/
def getA {α : Type} : List (String × α) → String → Option α
  | [], _ => none
  | e :: rest, k => if e.1 = k then some e.2 else getA rest k

/-- Key-presence test, mirroring Map.has. -/
def hasA {α : Type} (m : List (String × α)) (k : String) : Bool :=
  (getA m k).isSome

/-- Rewrite the value stored at a key (no insertion). -/
def replA {α : Type} : List (String × α) → String → α → List (String × α)
  | [], _, _ => []
  | e :: rest, k, v => if e.1 = k then (k, v) :: replA rest k v else e :: replA rest k v

/-- Mirrors Map.set: overwrite in place when the key is present, append otherwise. -/
def setA {α : Type} (m : List (String × α)) (k : String) (v : α) : List (String × α) :=
  if hasA m k then replA m k v else m ++ [(k, v)]

/-- Mirrors Map.delete. -/
def delA {α : Type} : List (String × α) → String → List (String × α)
  | [], _ => []
  | e :: rest, k => if e.1 = k then delA rest k else e :: delA rest k

/-- The set of channel ids holding a live router; getOrCreateRouter adds the
channel when absent (voiceManager.js, getOrCreateRouter). -/
def ensureRouter (l : List String) (ch : String) : List String :=
  if ch ∈ l then l else l ++ [ch]

/-- Close and drop the router of a channel (handleLeave cleanup). -/
def removeRouter : List String → String → List String
  | [], _ => []
  | c :: rest, ch => if c = ch then removeRouter rest ch else c :: removeRouter rest ch

/-- Entry of the global transport registry.  The channel is the router the
transport was created on; the direction is bookkeeping recorded from the
create-transport request (the server never stores or reads it); connected
records a successful transport.connect. -/
structure TransportRec where
  channelId : String
  direction : String
  connected : Bool
deriving DecidableEq, Repr

/-- Entry of the global producer registry: voiceManager.js stores
producerId -> (userId, channelId, kind). -/
structure ProducerInfo where
  userId : String
  channelId : String
  kind : String
deriving DecidableEq, Repr

/-- Entry of the global consumer registry; the stored Consumer object is
represented by the producer it consumes. -/
structure ConsumerRec where
  producerId : String
deriving DecidableEq, Repr

/-- A per-socket session of the orchestrator:
socketId -> (userId, channelId, transports, producers, consumers). -/
structure Session where
  userId : String
  channelId : String
  transports : List String
  producers : List String
  consumers : List String
deriving DecidableEq, Repr

/-- The VoiceManager registries (voiceManager.js constructor). -/
structure VMState where
  routers : List String
  transports : List (String × TransportRec)
  producers : List (String × ProducerInfo)
  consumers : List (String × ConsumerRec)
  userSessions : List (String × Session)
deriving DecidableEq, Repr

/-- Full server state: the VoiceManager plus the gateway maps of index.js
(onlineUsers, voiceChannelUsers) and the socket.io room table. -/
structure SrvState where
  vm : VMState
  onlineUsers : List (String × String)
  voiceChannelUsers : List (String × List (String × String))
  sioRooms : List (String × List String)
deriving DecidableEq, Repr

/-- Events pushed to clients.  Broadcasts to a concrete socket carry the
receiving socket id; io.emit broadcasts to everybody are recorded once. -/
inductive Ev where
  | usersUpdate (users : List String)
  | voiceUpdate (channelId : String) (users : List (String × String))
  | voiceUpdateTo (sock channelId : String) (users : List (String × String))
  | routerRtpCapabilities (sock : String)
  | existingProducers (sock : String) (producers : List (String × String))
  | newProducer (sock producerId userId : String)
  | producerClosed (sock producerId : String)
deriving DecidableEq, Repr

/-- Acknowledgement of a request-reply event: callback with success true and
a payload, or success false and the thrown error message. -/
inductive Ack (α : Type) where
  | ok (v : α)
  | fail (msg : String)
deriving DecidableEq, Repr

/-- Members of a socket.io room. -/
def roomMembers (st : SrvState) (ch : String) : List String :=
  (getA st.sioRooms ch).getD []

/-- socket.join: add the socket to a room (no-op when already a member). -/
def sioJoin (rooms : List (String × List String)) (sock ch : String) :
    List (String × List String) :=
  let ms := (getA rooms ch).getD []
  if sock ∈ ms then rooms else setA rooms ch (ms ++ [sock])

/-- socket.leave: remove the socket from a room; socket.io drops rooms that
become empty. -/
def sioLeave (rooms : List (String × List String)) (sock ch : String) :
    List (String × List String) :=
  match getA rooms ch with
  | none => rooms
  | some ms =>
    let ms1 := ms.filter (fun x => decide (x ≠ sock))
    if ms1 = [] then delA rooms ch else setA rooms ch ms1

/-- On disconnect, socket.io removes the socket from every room and drops
rooms that become empty. -/
def sioDisc : List (String × List String) → String → List (String × List String)
  | [], _ => []
  | e :: rest, sock =>
    let ms1 := e.2.filter (fun x => decide (x ≠ sock))
    if ms1 = [] then sioDisc rest sock else (e.1, ms1) :: sioDisc rest sock

/-- VoiceManager.handleJoinChannel: ensure the channel router, overwrite the
socket's session with a fresh one, emit router-rtp-capabilities followed by
existing-producers (the producers registered for this channel). -/
def handleJoinChannel (st : SrvState) (sock ch uid : String) : SrvState × List Ev :=
  let routers1 := ensureRouter st.vm.routers ch
  let sessions1 := setA st.vm.userSessions sock
    { userId := uid, channelId := ch, transports := [], producers := [], consumers := [] }
  let existing := st.vm.producers.filterMap
    (fun e => if e.2.channelId = ch then some (e.1, e.2.userId) else none)
  ({ st with vm := { st.vm with routers := routers1, userSessions := sessions1 } },
   [Ev.routerRtpCapabilities sock, Ev.existingProducers sock existing])

/-- The join_voice_channel handler of index.js: socket.join, ensure an index
entry for the channel, and only when the socket previously sent user_online
add it to the channel's index entry and broadcast a voice_channel_users_update
snapshot of every indexed channel; finally delegate to handleJoinChannel. -/
def joinVoiceChannel (st : SrvState) (sock ch uid : String) : SrvState × List Ev :=
  let rooms1 := sioJoin st.sioRooms sock ch
  let idx0 := if hasA st.voiceChannelUsers ch then st.voiceChannelUsers
              else setA st.voiceChannelUsers ch []
  let p :=
    match getA st.onlineUsers sock with
    | none => (idx0, ([] : List Ev))
    | some u =>
      let m := (getA idx0 ch).getD []
      let idx1 : List (String × List (String × String)) := setA idx0 ch (setA m sock u)
      (idx1, idx1.map (fun (e : String × List (String × String)) => Ev.voiceUpdate e.1 e.2))
  let st1 : SrvState := { st with sioRooms := rooms1, voiceChannelUsers := p.1 }
  let q := handleJoinChannel st1 sock ch uid
  (q.1, p.2 ++ q.2)

/-- VoiceManager.createTransport: getOrCreateRouter runs before the session
check, so the router is created even when the session lookup then fails.  On
success the transport is registered globally and recorded in the session. -/
def createTransport (st : SrvState) (sock ch dir fresh : String) :
    SrvState × Ack String :=
  let routers1 := ensureRouter st.vm.routers ch
  match getA st.vm.userSessions sock with
  | none =>
    ({ st with vm := { st.vm with routers := routers1 } }, Ack.fail "No session found")
  | some s =>
    let transports1 := setA st.vm.transports fresh
      { channelId := ch, direction := dir, connected := false }
    let sessions1 := setA st.vm.userSessions sock
      { s with transports := s.transports ++ [fresh] }
    ({ st with vm := { st.vm with
        routers := routers1
        transports := transports1
        userSessions := sessions1 } },
     Ack.ok fresh)

/-- VoiceManager.connectTransport: look the transport up in the global
registry and connect it; there is no ownership check, the socket argument is
never consulted. -/
def connectTransport (st : SrvState) (sock tid : String) : SrvState × Ack Unit :=
  match getA st.vm.transports tid with
  | none => (st, Ack.fail "Transport not found")
  | some t =>
    ({ st with vm := { st.vm with
        transports := setA st.vm.transports tid { t with connected := true } } },
     Ack.ok ())

/-- VoiceManager.produce: requires only that the transport id is registered
and the caller has a session (no direction or ownership check); registers the
producer under the session's channel and emits new-producer to every member
of the socket.io room of the session's channel except the caller. -/
def produce (st : SrvState) (sock tid kind fresh : String) :
    SrvState × Ack String × List Ev :=
  match getA st.vm.transports tid with
  | none => (st, Ack.fail "Transport not found", [])
  | some _ =>
    match getA st.vm.userSessions sock with
    | none => (st, Ack.fail "Session not found", [])
    | some s =>
      let producers1 := setA st.vm.producers fresh
        { userId := s.userId, channelId := s.channelId, kind := kind }
      let sessions1 := setA st.vm.userSessions sock
        { s with producers := s.producers ++ [fresh] }
      let recips := (roomMembers st s.channelId).filter (fun r => decide (r ≠ sock))
      ({ st with vm := { st.vm with producers := producers1, userSessions := sessions1 } },
       Ack.ok fresh,
       recips.map (fun r => Ev.newProducer r fresh s.userId))

/-- VoiceManager.consume: the producer must be registered, the router of the
producer's channel (not the caller's), the transport and the caller's session
must exist, and the router must report the capabilities compatible; no check
relates the caller's channel to the producer's channel.  The canCons input is
the verdict of the router's canConsume, which is false whenever the producer
does not live on that router, so under a true verdict the SFU library's
transport.consume - which resolves the producer through the transport's own
router - succeeds exactly when the transport was created on the producer's
channel router; otherwise the library throws, which surfaces as a failure ack
with the state unchanged (the message below stands for the library's thrown
error, whose exact wording comes from the SFU library, not this repository). -/
def consume (st : SrvState) (sock pid tid : String) (canCons : Bool) (fresh : String) :
    SrvState × Ack String × List Ev :=
  match getA st.vm.producers pid with
  | none => (st, Ack.fail "Producer not found", [])
  | some pInfo =>
    if pInfo.channelId ∈ st.vm.routers then
      match getA st.vm.transports tid, getA st.vm.userSessions sock with
      | some t, some s =>
        if canCons then
          if t.channelId = pInfo.channelId then
            let consumers1 := setA st.vm.consumers fresh { producerId := pid }
            let sessions1 := setA st.vm.userSessions sock
              { s with consumers := s.consumers ++ [fresh] }
            ({ st with vm := { st.vm with
                consumers := consumers1
                userSessions := sessions1 } },
             Ack.ok fresh, [])
          else (st, Ack.fail "Producer not on transport router", [])
        else (st, Ack.fail "Cannot consume - incompatible codecs", [])
      | _, _ => (st, Ack.fail "Router, transport, or session not found", [])
    else (st, Ack.fail "Router, transport, or session not found", [])

/-- One pass of handleLeave over the departing session's producer list:
registered producers are dropped from the global registry and a
producer-closed is emitted to each peer in the room. -/
def closeProducers (producers : List (String × ProducerInfo)) (pids : List String)
    (recips : List String) : List (String × ProducerInfo) × List Ev :=
  pids.foldl
    (fun acc pid =>
      match getA acc.1 pid with
      | some _ => (delA acc.1 pid, acc.2 ++ recips.map (fun r => Ev.producerClosed r pid))
      | none => acc)
    (producers, [])

/-- VoiceManager.handleLeave: a no-op without a session; otherwise close the
session's producers (broadcasting producer-closed to room peers), drop its
consumers and transports from the registries, remove the session, and when no
session for the channel remains close and drop the channel's router. -/
def handleLeave (st : SrvState) (sock : String) : SrvState × List Ev :=
  match getA st.vm.userSessions sock with
  | none => (st, [])
  | some s =>
    let recips := (roomMembers st s.channelId).filter (fun r => decide (r ≠ sock))
    let pc := closeProducers st.vm.producers s.producers recips
    let consumers1 := s.consumers.foldl (fun m cid => delA m cid) st.vm.consumers
    let transports1 := s.transports.foldl (fun m tid => delA m tid) st.vm.transports
    let sessions1 := delA st.vm.userSessions sock
    let hasUsers := sessions1.any (fun e => decide (e.2.channelId = s.channelId))
    let routers1 := if hasUsers then st.vm.routers
                    else removeRouter st.vm.routers s.channelId
    ({ st with vm := {
        routers := routers1
        transports := transports1
        producers := pc.1
        consumers := consumers1
        userSessions := sessions1 } },
     pc.2)

/-- The membership-index half of the leave_voice_channel handler: when the
channel is indexed, remove the socket, drop the channel when it became empty,
broadcast a snapshot of every remaining indexed channel, and when the channel
is no longer indexed emit one empty-array update for it. -/
def leaveIndex (idx : List (String × List (String × String))) (sock ch : String) :
    List (String × List (String × String)) × List Ev :=
  match getA idx ch with
  | none => (idx, [])
  | some m =>
    if delA m sock = [] then
      (delA idx ch, (delA idx ch).map (fun e => Ev.voiceUpdate e.1 e.2) ++
        (if hasA (delA idx ch) ch then [] else [Ev.voiceUpdate ch []]))
    else
      (setA idx ch (delA m sock),
        (setA idx ch (delA m sock)).map (fun e => Ev.voiceUpdate e.1 e.2) ++
        (if hasA (setA idx ch (delA m sock)) ch then [] else [Ev.voiceUpdate ch []]))

/-- The leave_voice_channel handler of index.js: socket.leave, membership
index update with its broadcasts, then handleLeave. -/
def leaveVoiceChannel (st : SrvState) (sock ch : String) : SrvState × List Ev :=
  let rooms1 := sioLeave st.sioRooms sock ch
  let p := leaveIndex st.voiceChannelUsers sock ch
  let st1 : SrvState := { st with sioRooms := rooms1, voiceChannelUsers := p.1 }
  let q := handleLeave st1 sock
  (q.1, p.2 ++ q.2)

/-- The index sweep of the disconnect handler: channels containing the socket
lose it and are dropped when that empties them; channels not containing the
socket are kept untouched. -/
def indexDisc : List (String × List (String × String)) → String →
    List (String × List (String × String))
  | [], _ => []
  | e :: rest, sock =>
    if hasA e.2 sock then
      (if delA e.2 sock = [] then indexDisc rest sock
       else (e.1, delA e.2 sock) :: indexDisc rest sock)
    else e :: indexDisc rest sock

/-- The disconnect handler of index.js: drop the socket from presence and
broadcast users_update, run handleLeave, sweep the membership index, then
broadcast a snapshot of every remaining indexed channel.  No empty-array
update is emitted for channels the sweep dropped. -/
def disconnect (st : SrvState) (sock : String) : SrvState × List Ev :=
  let online1 := delA st.onlineUsers sock
  let rooms1 := sioDisc st.sioRooms sock
  let st1 : SrvState := { st with onlineUsers := online1, sioRooms := rooms1 }
  let q := handleLeave st1 sock
  let idx1 := indexDisc q.1.voiceChannelUsers sock
  let st2 : SrvState := { q.1 with voiceChannelUsers := idx1 }
  (st2, Ev.usersUpdate (online1.map (fun e => e.2)) :: q.2 ++
    idx1.map (fun e => Ev.voiceUpdate e.1 e.2))

/-- The user_online handler: register presence, broadcast users_update, and
send the new socket one catch-up voice_channel_users_update per indexed
channel. -/
def userOnline (st : SrvState) (sock user : String) : SrvState × List Ev :=
  let online1 := setA st.onlineUsers sock user
  ({ st with onlineUsers := online1 },
   Ev.usersUpdate (online1.map (fun e => e.2)) ::
     st.voiceChannelUsers.map (fun e => Ev.voiceUpdateTo sock e.1 e.2))

/-- The empty server state at startup. -/
def initState : SrvState :=
  { vm := { routers := [], transports := [], producers := [], consumers := [], userSessions := [] },
    onlineUsers := [], voiceChannelUsers := [], sioRooms := [] }

/-- The inbound events of the sequences quantified over by the router
invariant claim: user_online, join_voice_channel, leave_voice_channel,
disconnect and create-transport. -/
inductive Step where
  | online (sock user : String)
  | join (sock ch uid : String)
  | leave (sock ch : String)
  | disc (sock : String)
  | ctrans (sock ch dir fresh : String)
deriving DecidableEq, Repr

/-- State reached after one inbound event (the emitted events and acks are
dropped). -/
def applyStep (st : SrvState) : Step → SrvState
  | Step.online sock u => (userOnline st sock u).1
  | Step.join sock ch uid => (joinVoiceChannel st sock ch uid).1
  | Step.leave sock ch => (leaveVoiceChannel st sock ch).1
  | Step.disc sock => (disconnect st sock).1
  | Step.ctrans sock ch dir fresh => (createTransport st sock ch dir fresh).1

/-- State reached after a sequence of inbound events. -/
def run (st : SrvState) (steps : List Step) : SrvState :=
  steps.foldl applyStep st

/-- Every session's channel has a live router in the registry. -/
def invVM (vm : VMState) : Prop :=
  ∀ e ∈ vm.userSessions, e.2.channelId ∈ vm.routers

/-- A persisted user record of data.json. -/
structure UserRec where
  id : String
  username : String
deriving DecidableEq, Repr

/-- POST /api/auth/login: reject a missing (falsy) username with 400, return
an existing user with the same username unchanged, otherwise append a new
user built from the supplied fresh id and persist.  Returns (status, user,
store). -/
def login (users : List UserRec) (username : Option String) (fresh : String) :
    Nat × Option UserRec × List UserRec :=
  match username with
  | none => (400, none, users)
  | some u =>
    if u = "" then (400, none, users)
    else
      match users.find? (fun x => decide (x.username = u)) with
      | some x => (200, some x, users)
      | none => (200, some { id := fresh, username := u },
                 users ++ [{ id := fresh, username := u }])

/-- State with one participant A in channel c1 holding send transport tA. -/
def stA : SrvState :=
  run initState [Step.join "A" "c1" "uA", Step.ctrans "A" "c1" "send" "tA"]

/-- State where A joined c1 and then c2 without leaving, and B joined c1 with
a send transport t1. -/
def stRejoin : SrvState :=
  run initState [Step.join "A" "c1" "uA", Step.join "A" "c2" "uA",
                 Step.join "B" "c1" "uB", Step.ctrans "B" "c1" "send" "t1"]

/-- State where A holds a recv transport in c1, B is in c1, and C - whose
session is in c2 - holds a recv transport it created on channel c1 (the
create-transport payload carries an arbitrary channel id) and another on its
own channel c2. -/
def stCross : SrvState :=
  run initState [Step.join "A" "c1" "uA", Step.ctrans "A" "c1" "recv" "tA",
                 Step.join "B" "c1" "uB", Step.join "C" "c2" "uC",
                 Step.ctrans "C" "c1" "recv" "tC", Step.ctrans "C" "c2" "recv" "tD"]

/-- State for the codec-failure scenario: A produced p1 on its send transport
in c1, then B joined c1 and created recv transport tB. -/
def stCodec : SrvState :=
  (createTransport
    ((joinVoiceChannel ((produce stA "A" "tA" "audio" "p1").1) "B" "c1" "uB").1)
    "B" "c1" "recv" "tB").1

/-- State where online users A (channel c1) and C (channel c2) are the sole
voice participants. -/
def stTwoCh : SrvState :=
  run initState [Step.online "A" "uA", Step.online "C" "uC",
                 Step.join "A" "c1" "uA", Step.join "C" "c2" "uC"]

/-- State where online users A and B share channel c1. -/
def stShared : SrvState :=
  run initState [Step.online "A" "uA", Step.online "B" "uB",
                 Step.join "A" "c1" "uA", Step.join "B" "c1" "uB"]

/-- State where online user A is alone in channel c1. -/
def stSolo : SrvState :=
  run initState [Step.online "A" "uA", Step.join "A" "c1" "uA"]

/-- State where A joined c1 and then c2 without an intervening leave. -/
def stC1x : SrvState :=
  run initState [Step.join "A" "c1" "uA", Step.join "A" "c2" "uA"]

/-- stCross after B produced p1 on A's recv transport. -/
def stP4 : SrvState :=
  (produce stCross "B" "tA" "audio" "p1").1

/-- State where A (not online) joined c1 and holds no resources yet. -/
def stJ1 : SrvState :=
  run initState [Step.join "A" "c1" "uA"]

theorem getA_mem {α : Type} {m : List (String × α)} {k : String} {v : α}
    (h : getA m k = some v) : (k, v) ∈ m := by
  induction m with
  | nil => simp [getA] at h
  | cons e rest ih =>
    rw [getA] at h
    split at h
    · next he =>
      obtain ⟨a, b⟩ := e
      obtain rfl : a = k := he
      obtain rfl : b = v := Option.some.inj h
      exact List.mem_cons_self _ _
    · exact List.mem_cons_of_mem _ (ih h)

theorem hasA_of_getA {α : Type} {m : List (String × α)} {k : String} {v : α}
    (h : getA m k = some v) : hasA m k = true := by
  simp [hasA, h]

theorem getA_eq_none_of_hasA_false {α : Type} {m : List (String × α)} {k : String}
    (h : hasA m k = false) : getA m k = none := by
  simpa [hasA, Option.isSome_iff_exists] using h

theorem not_hasA_of_not_mem_keys {α : Type} {m : List (String × α)} {k : String}
    (h : k ∉ m.map Prod.fst) : hasA m k = false := by
  induction m with
  | nil => rfl
  | cons e rest ih =>
    simp only [List.map_cons, List.mem_cons] at h
    push_neg at h
    have he : e.1 ≠ k := fun hc => h.1 hc.symm
    simp only [hasA, getA, if_neg he]
    simpa [hasA] using ih h.2

theorem getA_replA_self {α : Type} {m : List (String × α)} {k : String} (v : α)
    (h : hasA m k = true) : getA (replA m k v) k = some v := by
  induction m with
  | nil => simp [hasA, getA] at h
  | cons e rest ih =>
    by_cases he : e.1 = k
    · simp [replA, he, getA]
    · simp only [replA, if_neg he, getA, he, if_false]
      apply ih
      simpa [hasA, getA, he] using h

theorem replA_of_hasA_false {α : Type} {m : List (String × α)} {k : String} (v : α)
    (h : hasA m k = false) : replA m k v = m := by
  induction m with
  | nil => rfl
  | cons e rest ih =>
    by_cases he : e.1 = k
    · simp [hasA, getA, he] at h
    · simp only [replA, if_neg he]
      rw [ih (by simpa [hasA, getA, he] using h)]

theorem getA_append_of_none {α : Type} {m m2 : List (String × α)} {k : String}
    (h : getA m k = none) : getA (m ++ m2) k = getA m2 k := by
  induction m with
  | nil => rfl
  | cons e rest ih =>
    rw [getA] at h
    split at h
    · exact absurd h (by simp)
    · next he => simpa [getA, he] using ih h

theorem getA_setA {α : Type} (m : List (String × α)) (k : String) (v : α) :
    getA (setA m k v) k = some v := by
  by_cases h : hasA m k
  · rw [setA, if_pos h]
    exact getA_replA_self v h
  · rw [setA, if_neg h]
    rw [getA_append_of_none (getA_eq_none_of_hasA_false (by simpa using h))]
    simp [getA]

theorem hasA_setA {α : Type} (m : List (String × α)) (k : String) (v : α) :
    hasA (setA m k v) k = true :=
  hasA_of_getA (getA_setA m k v)

theorem replA_replA {α : Type} (m : List (String × α)) (k : String) (v w : α) :
    replA (replA m k v) k w = replA m k w := by
  induction m with
  | nil => rfl
  | cons e rest ih =>
    by_cases he : e.1 = k
    · simp [replA, he, ih]
    · simp [replA, he, ih]

theorem replA_append_single {α : Type} {m : List (String × α)} {k : String} (v w : α)
    (h : hasA m k = false) : replA (m ++ [(k, v)]) k w = m ++ [(k, w)] := by
  induction m with
  | nil => simp [replA]
  | cons e rest ih =>
    by_cases he : e.1 = k
    · simp [hasA, getA, he] at h
    · have h2 : hasA rest k = false := by simpa [hasA, getA, he] using h
      simp [replA, he, ih h2]

theorem setA_setA {α : Type} (m : List (String × α)) (k : String) (v w : α) :
    setA (setA m k v) k w = setA m k w := by
  by_cases h : hasA m k = true
  · have e1 : setA m k v = replA m k v := by rw [setA, if_pos h]
    have e2 : setA m k w = replA m k w := by rw [setA, if_pos h]
    have h1 : hasA (replA m k v) k = true := hasA_of_getA (getA_replA_self v h)
    rw [e1, setA, if_pos h1, replA_replA, ← e2]
  · have hb : hasA m k = false := by simpa using h
    have e1 : setA m k v = m ++ [(k, v)] := by rw [setA, if_neg h]
    have e2 : setA m k w = m ++ [(k, w)] := by rw [setA, if_neg h]
    have hg : getA (m ++ [(k, v)]) k = some v := by
      rw [getA_append_of_none (getA_eq_none_of_hasA_false hb)]
      simp [getA]
    have h1 : hasA (m ++ [(k, v)]) k = true := hasA_of_getA hg
    rw [e1, setA, if_pos h1, replA_append_single v w hb, ← e2]

theorem getA_delA {α : Type} (m : List (String × α)) (k : String) :
    getA (delA m k) k = none := by
  induction m with
  | nil => rfl
  | cons e rest ih =>
    by_cases he : e.1 = k
    · simpa [delA, he] using ih
    · simpa [delA, he, getA] using ih

theorem hasA_delA {α : Type} (m : List (String × α)) (k : String) :
    hasA (delA m k) k = false := by
  simp [hasA, getA_delA]

theorem delA_of_hasA_false {α : Type} {m : List (String × α)} {k : String}
    (h : hasA m k = false) : delA m k = m := by
  induction m with
  | nil => rfl
  | cons e rest ih =>
    by_cases he : e.1 = k
    · simp [hasA, getA, he] at h
    · simp only [delA, if_neg he]
      rw [ih (by simpa [hasA, getA, he] using h)]

theorem delA_delA {α : Type} (m : List (String × α)) (k : String) :
    delA (delA m k) k = delA m k :=
  delA_of_hasA_false (hasA_delA m k)

theorem mem_delA {α : Type} {m : List (String × α)} {k : String} {e : String × α}
    (h : e ∈ delA m k) : e ∈ m := by
  induction m with
  | nil => simpa [delA] using h
  | cons f rest ih =>
    by_cases hf : f.1 = k
    · rw [delA, if_pos hf] at h
      exact List.mem_cons_of_mem _ (ih h)
    · rw [delA, if_neg hf] at h
      rcases List.mem_cons.mp h with h1 | h1
      · exact h1 ▸ List.mem_cons_self _ _
      · exact List.mem_cons_of_mem _ (ih h1)

theorem mem_setA {α : Type} {m : List (String × α)} {k : String} {v : α}
    {e : String × α} (h : e ∈ setA m k v) : e ∈ m ∨ e = (k, v) := by
  by_cases hk : hasA m k
  · rw [setA, if_pos hk] at h
    clear hk
    induction m with
    | nil => simpa [replA] using h
    | cons f rest ih =>
      by_cases hf : f.1 = k
      · rw [replA, if_pos hf] at h
        rcases List.mem_cons.mp h with h1 | h1
        · exact Or.inr h1
        · rcases ih h1 with h2 | h2
          · exact Or.inl (List.mem_cons_of_mem _ h2)
          · exact Or.inr h2
      · rw [replA, if_neg hf] at h
        rcases List.mem_cons.mp h with h1 | h1
        · exact Or.inl (h1 ▸ List.mem_cons_self _ _)
        · rcases ih h1 with h2 | h2
          · exact Or.inl (List.mem_cons_of_mem _ h2)
          · exact Or.inr h2
  · rw [setA, if_neg hk] at h
    rcases List.mem_append.mp h with h1 | h1
    · exact Or.inl h1
    · exact Or.inr (by simpa using h1)

theorem setA_eq_of_getA {α : Type} {m : List (String × α)} {k : String} {v : α}
    (hnd : (m.map Prod.fst).Nodup) (h : getA m k = some v) : setA m k v = m := by
  rw [setA, if_pos (hasA_of_getA h)]
  induction m with
  | nil => simp [getA] at h
  | cons e rest ih =>
    simp only [List.map_cons, List.nodup_cons] at hnd
    by_cases he : e.1 = k
    · rw [getA, if_pos he] at h
      have h2 : e.2 = v := Option.some.inj h
      have hkv : (k, v) = e := by
        obtain ⟨a, b⟩ := e
        simp only at he h2
        rw [he, h2]
      rw [replA, if_pos he, hkv]
      have hk : k ∉ rest.map Prod.fst := he ▸ hnd.1
      rw [replA_of_hasA_false v (not_hasA_of_not_mem_keys hk)]
    · rw [getA, if_neg he] at h
      rw [replA, if_neg he, ih hnd.2 h]

theorem mem_ensureRouter_self (l : List String) (ch : String) :
    ch ∈ ensureRouter l ch := by
  rw [ensureRouter]
  split
  · assumption
  · simp

theorem mem_ensureRouter_of_mem {l : List String} {c : String} (ch : String)
    (h : c ∈ l) : c ∈ ensureRouter l ch := by
  rw [ensureRouter]
  split
  · exact h
  · exact List.mem_append_left _ h

theorem ensureRouter_of_mem {l : List String} {ch : String} (h : ch ∈ l) :
    ensureRouter l ch = l := by
  rw [ensureRouter, if_pos h]

theorem not_mem_removeRouter (l : List String) (ch : String) :
    ch ∉ removeRouter l ch := by
  induction l with
  | nil => simp [removeRouter]
  | cons c rest ih =>
    by_cases hc : c = ch
    · simpa [removeRouter, hc] using ih
    · simp only [removeRouter, if_neg hc, List.mem_cons]
      rintro (h | h)
      · exact hc h.symm
      · exact ih h

theorem mem_removeRouter_of_ne {l : List String} {c ch : String}
    (h : c ∈ l) (hne : c ≠ ch) : c ∈ removeRouter l ch := by
  induction l with
  | nil => simp at h
  | cons d rest ih =>
    by_cases hd : d = ch
    · rw [removeRouter, if_pos hd]
      rcases List.mem_cons.mp h with h1 | h1
      · exact absurd (h1.trans hd) hne
      · exact ih h1
    · rw [removeRouter, if_neg hd]
      rcases List.mem_cons.mp h with h1 | h1
      · exact h1 ▸ List.mem_cons_self _ _
      · exact List.mem_cons_of_mem _ (ih h1)

theorem sioDisc_mem {rooms : List (String × List String)} {sock : String}
    {e : String × List String} (h : e ∈ sioDisc rooms sock) :
    sock ∉ e.2 ∧ e.2 ≠ [] := by
  induction rooms with
  | nil => simp [sioDisc] at h
  | cons f rest ih =>
    rw [sioDisc] at h
    split at h
    · exact ih h
    · next hne =>
      rcases List.mem_cons.mp h with h1 | h1
      · subst h1
        refine ⟨fun hc => ?_, hne⟩
        have := (List.mem_filter.mp hc).2
        simp at this
      · exact ih h1

theorem sioDisc_keys_sublist (rooms : List (String × List String)) (sock : String) :
    ((sioDisc rooms sock).map Prod.fst).Sublist (rooms.map Prod.fst) := by
  induction rooms with
  | nil => simp [sioDisc]
  | cons f rest ih =>
    rw [sioDisc]
    split
    · exact List.Sublist.cons _ ih
    · simp only [List.map_cons]
      exact List.Sublist.cons₂ _ ih

theorem indexDisc_mem {idx : List (String × List (String × String))} {sock : String}
    {e : String × List (String × String)} (h : e ∈ indexDisc idx sock) :
    hasA e.2 sock = false := by
  induction idx with
  | nil => simp [indexDisc] at h
  | cons f rest ih =>
    rw [indexDisc] at h
    split at h
    · split at h
      · exact ih h
      · rcases List.mem_cons.mp h with h1 | h1
        · subst h1
          exact hasA_delA _ _
        · exact ih h1
    · next hf =>
      rcases List.mem_cons.mp h with h1 | h1
      · subst h1
        simpa using hf
      · exact ih h1

theorem indexDisc_keys_sublist (idx : List (String × List (String × String)))
    (sock : String) :
    ((indexDisc idx sock).map Prod.fst).Sublist (idx.map Prod.fst) := by
  induction idx with
  | nil => simp [indexDisc]
  | cons f rest ih =>
    rw [indexDisc]
    split
    · split
      · exact List.Sublist.cons _ ih
      · simp only [List.map_cons]
        exact List.Sublist.cons₂ _ ih
    · simp only [List.map_cons]
      exact List.Sublist.cons₂ _ ih

theorem count_map_newProducer (l : List String) (x fresh uid : String) :
    (l.map (fun r => Ev.newProducer r fresh uid)).count (Ev.newProducer x fresh uid) =
      l.count x := by
  induction l with
  | nil => rfl
  | cons a rest ih =>
    by_cases ha : a = x
    · subst ha
      simp [List.count_cons_self, ih]
    · rw [List.map_cons,
        List.count_cons_of_ne (by
          intro hc
          injection hc with h1 h2 h3
          exact ha h1.symm),
        List.count_cons_of_ne (fun hc => ha hc.symm), ih]

theorem count_filter_ne {l : List String} (hnd : l.Nodup) (sock r : String) :
    (l.filter (fun x => decide (x ≠ sock))).count r =
      if r ∈ l ∧ r ≠ sock then 1 else 0 := by
  by_cases hr : r ≠ sock
  · by_cases hm : r ∈ l
    · rw [if_pos ⟨hm, hr⟩]
      exact List.count_eq_one_of_mem (hnd.filter _)
        (List.mem_filter.mpr ⟨hm, by simpa using hr⟩)
    · rw [if_neg (fun hc => hm hc.1)]
      exact List.count_eq_zero.mpr (fun hc => hm (List.mem_filter.mp hc).1)
  · push_neg at hr
    subst hr
    rw [if_neg (by simp)]
    exact List.count_eq_zero.mpr (fun hc => by
      have := (List.mem_filter.mp hc).2
      simp at this)

theorem filter_ne_of_not_mem {l : List String} {sock : String} (h : sock ∉ l) :
    l.filter (fun x => decide (x ≠ sock)) = l :=
  List.filter_eq_self.mpr (fun a ha => by
    simp only [decide_eq_true_eq]
    exact fun hc => h (hc ▸ ha))

theorem handleLeave_of_getA_none {st : SrvState} {sock : String}
    (h : getA st.vm.userSessions sock = none) : handleLeave st sock = (st, []) := by
  rw [handleLeave, h]

theorem handleLeave_sioRooms (st : SrvState) (sock : String) :
    (handleLeave st sock).1.sioRooms = st.sioRooms := by
  rw [handleLeave]
  split <;> rfl

theorem handleLeave_voiceChannelUsers (st : SrvState) (sock : String) :
    (handleLeave st sock).1.voiceChannelUsers = st.voiceChannelUsers := by
  rw [handleLeave]
  split <;> rfl

theorem handleLeave_onlineUsers (st : SrvState) (sock : String) :
    (handleLeave st sock).1.onlineUsers = st.onlineUsers := by
  rw [handleLeave]
  split <;> rfl

theorem handleLeave_sessions_self (st : SrvState) (sock : String) :
    getA (handleLeave st sock).1.vm.userSessions sock = none := by
  rw [handleLeave]
  split
  · next h => simpa using h
  · exact getA_delA _ _

theorem leaveVoiceChannel_state (st : SrvState) (sock ch : String) :
    (leaveVoiceChannel st sock ch).1 =
      (handleLeave
        { st with
          sioRooms := sioLeave st.sioRooms sock ch
          voiceChannelUsers := (leaveIndex st.voiceChannelUsers sock ch).1 } sock).1 :=
  rfl

theorem leave_sioRooms (st : SrvState) (sock ch : String) :
    (leaveVoiceChannel st sock ch).1.sioRooms = sioLeave st.sioRooms sock ch := by
  rw [leaveVoiceChannel_state, handleLeave_sioRooms]

theorem leave_voiceChannelUsers (st : SrvState) (sock ch : String) :
    (leaveVoiceChannel st sock ch).1.voiceChannelUsers =
      (leaveIndex st.voiceChannelUsers sock ch).1 := by
  rw [leaveVoiceChannel_state, handleLeave_voiceChannelUsers]

theorem leave_sessions_gone (st : SrvState) (sock ch : String) :
    getA (leaveVoiceChannel st sock ch).1.vm.userSessions sock = none := by
  rw [leaveVoiceChannel_state]
  exact handleLeave_sessions_self _ _

theorem sioLeave_idem (rooms : List (String × List String)) (sock ch : String) :
    sioLeave (sioLeave rooms sock ch) sock ch = sioLeave rooms sock ch := by
  cases h : getA rooms ch with
  | none =>
    have e : sioLeave rooms sock ch = rooms := by rw [sioLeave, h]
    rw [e, sioLeave, h]
  | some ms =>
    by_cases hms : ms.filter (fun x => decide (x ≠ sock)) = []
    · have e : sioLeave rooms sock ch = delA rooms ch := by
        rw [sioLeave, h]
        exact if_pos hms
      rw [e, sioLeave, getA_delA]
    · have e : sioLeave rooms sock ch =
          setA rooms ch (ms.filter (fun x => decide (x ≠ sock))) := by
        rw [sioLeave, h]
        simp only [hms, if_neg, ite_false]
      have hff : (ms.filter (fun x => decide (x ≠ sock))).filter
          (fun x => decide (x ≠ sock)) = ms.filter (fun x => decide (x ≠ sock)) :=
        List.filter_eq_self.mpr (fun a ha => (List.mem_filter.mp ha).2)
      rw [e, sioLeave, getA_setA]
      simp only [hff, hms, if_neg, ite_false]
      exact setA_setA _ _ _ _

theorem leaveIndex_idem (idx : List (String × List (String × String)))
    (sock ch : String) :
    (leaveIndex (leaveIndex idx sock ch).1 sock ch).1 = (leaveIndex idx sock ch).1 := by
  cases h : getA idx ch with
  | none =>
    have e : (leaveIndex idx sock ch).1 = idx := by rw [leaveIndex, h]
    rw [e, leaveIndex, h]
  | some m =>
    by_cases hm : delA m sock = []
    · have e : (leaveIndex idx sock ch).1 = delA idx ch := by
        rw [leaveIndex, h]
        dsimp only
        rw [if_pos hm]
      rw [e, leaveIndex, getA_delA]
    · have e : (leaveIndex idx sock ch).1 = setA idx ch (delA m sock) := by
        rw [leaveIndex, h]
        dsimp only
        rw [if_neg hm]
      rw [e, leaveIndex, getA_setA]
      dsimp only
      rw [delA_delA, if_neg hm]
      exact setA_setA _ _ _ _

theorem leave_leave (st : SrvState) (sock ch : String) :
    (leaveVoiceChannel (leaveVoiceChannel st sock ch).1 sock ch).1 =
      (leaveVoiceChannel st sock ch).1 := by
  have hRo := leave_sioRooms st sock ch
  have hIo := leave_voiceChannelUsers st sock ch
  have hR : sioLeave (leaveVoiceChannel st sock ch).1.sioRooms sock ch =
      (leaveVoiceChannel st sock ch).1.sioRooms := by
    rw [hRo]
    exact sioLeave_idem _ _ _
  have hI : (leaveIndex (leaveVoiceChannel st sock ch).1.voiceChannelUsers sock ch).1 =
      (leaveVoiceChannel st sock ch).1.voiceChannelUsers := by
    rw [hIo]
    exact leaveIndex_idem _ _ _
  conv_lhs => rw [leaveVoiceChannel_state]
  rw [hR, hI]
  rw [handleLeave_of_getA_none (leave_sessions_gone st sock ch)]

theorem disc_state (st : SrvState) (sock : String) :
    (disconnect st sock).1 =
      { (handleLeave
          { st with
            onlineUsers := delA st.onlineUsers sock
            sioRooms := sioDisc st.sioRooms sock } sock).1 with
        voiceChannelUsers := indexDisc
          (handleLeave
            { st with
              onlineUsers := delA st.onlineUsers sock
              sioRooms := sioDisc st.sioRooms sock } sock).1.voiceChannelUsers sock } :=
  rfl

theorem disc_sioRooms (st : SrvState) (sock : String) :
    (disconnect st sock).1.sioRooms = sioDisc st.sioRooms sock := by
  rw [disc_state]
  exact handleLeave_sioRooms _ _

theorem disc_voiceChannelUsers (st : SrvState) (sock : String) :
    (disconnect st sock).1.voiceChannelUsers = indexDisc st.voiceChannelUsers sock := by
  rw [disc_state]
  show indexDisc _ sock = _
  rw [handleLeave_voiceChannelUsers]

theorem disc_sessions_gone (st : SrvState) (sock : String) :
    getA (disconnect st sock).1.vm.userSessions sock = none := by
  rw [disc_state]
  exact handleLeave_sessions_self _ _

theorem leave_noop_after_disc (st : SrvState) (sock ch : String)
    (hndR : (st.sioRooms.map Prod.fst).Nodup)
    (hndI : (st.voiceChannelUsers.map Prod.fst).Nodup)
    (hne : getA (disconnect st sock).1.voiceChannelUsers ch ≠ some []) :
    (leaveVoiceChannel (disconnect st sock).1 sock ch).1 = (disconnect st sock).1 := by
  have hRo := disc_sioRooms st sock
  have hIo := disc_voiceChannelUsers st sock
  have hR : sioLeave (disconnect st sock).1.sioRooms sock ch =
      (disconnect st sock).1.sioRooms := by
    rw [hRo]
    cases h : getA (sioDisc st.sioRooms sock) ch with
    | none => rw [sioLeave, h]
    | some ms =>
      have hmem := sioDisc_mem (getA_mem h)
      rw [sioLeave, h]
      simp only [filter_ne_of_not_mem hmem.1, hmem.2, if_neg, ite_false]
      exact setA_eq_of_getA (hndR.sublist (sioDisc_keys_sublist _ _)) h
  have hI : (leaveIndex (disconnect st sock).1.voiceChannelUsers sock ch).1 =
      (disconnect st sock).1.voiceChannelUsers := by
    rw [hIo] at hne ⊢
    cases h : getA (indexDisc st.voiceChannelUsers sock) ch with
    | none => rw [leaveIndex, h]
    | some m =>
      have hmem := indexDisc_mem (getA_mem h)
      have hdel : delA m sock = m := delA_of_hasA_false hmem
      have hm : m ≠ [] := fun hc => hne (by rw [h, hc])
      rw [leaveIndex, h]
      dsimp only
      rw [hdel, if_neg hm]
      exact setA_eq_of_getA (hndI.sublist (indexDisc_keys_sublist _ _)) h
  conv_lhs => rw [leaveVoiceChannel_state]
  rw [hR, hI]
  rw [handleLeave_of_getA_none (disc_sessions_gone st sock)]

theorem join_vm (st : SrvState) (sock ch uid : String) :
    (joinVoiceChannel st sock ch uid).1.vm =
      { st.vm with
        routers := ensureRouter st.vm.routers ch
        userSessions := setA st.vm.userSessions sock
          { userId := uid, channelId := ch, transports := [], producers := [],
            consumers := [] } } := by
  rw [joinVoiceChannel]
  cases getA st.onlineUsers sock <;> rfl

theorem invVM_handleLeave {st : SrvState} (sock : String) (h : invVM st.vm) :
    invVM (handleLeave st sock).1.vm := by
  rw [handleLeave]
  split
  · exact h
  · next s hs =>
    intro e he
    simp only at he
    have he2 : e ∈ st.vm.userSessions := mem_delA he
    have hch := h e he2
    by_cases hu : ((delA st.vm.userSessions sock).any
        (fun x => decide (x.2.channelId = s.channelId))) = true
    · simpa [hu] using hch
    · have hne : e.2.channelId ≠ s.channelId := by
        intro hc
        exact hu (List.any_eq_true.mpr ⟨e, he, by simp [hc]⟩)
      simp only [Bool.not_eq_true] at hu
      simpa [hu] using mem_removeRouter_of_ne hch hne

theorem invVM_join {st : SrvState} (sock ch uid : String) (h : invVM st.vm) :
    invVM (joinVoiceChannel st sock ch uid).1.vm := by
  rw [join_vm]
  intro e he
  rcases mem_setA he with h1 | h1
  · exact mem_ensureRouter_of_mem ch (h e h1)
  · subst h1
    exact mem_ensureRouter_self _ _

theorem invVM_ctrans {st : SrvState} (sock ch dir fresh : String) (h : invVM st.vm) :
    invVM (createTransport st sock ch dir fresh).1.vm := by
  rw [createTransport]
  split
  · intro e he
    exact mem_ensureRouter_of_mem ch (h e he)
  · next s hs =>
    intro e he
    simp only at he
    rcases mem_setA he with h1 | h1
    · exact mem_ensureRouter_of_mem ch (h e h1)
    · subst h1
      exact mem_ensureRouter_of_mem ch (h (sock, s) (getA_mem hs))

theorem invVM_leave {st : SrvState} (sock ch : String) (h : invVM st.vm) :
    invVM (leaveVoiceChannel st sock ch).1.vm := by
  rw [leaveVoiceChannel_state]
  exact invVM_handleLeave sock h

theorem invVM_disc {st : SrvState} (sock : String) (h : invVM st.vm) :
    invVM (disconnect st sock).1.vm := by
  rw [disc_state]
  exact invVM_handleLeave sock h

theorem invVM_online {st : SrvState} (sock u : String) (h : invVM st.vm) :
    invVM (userOnline st sock u).1.vm := h

theorem invVM_step {st : SrvState} (e : Step) (h : invVM st.vm) :
    invVM (applyStep st e).vm := by
  cases e with
  | online sock u => exact invVM_online sock u h
  | join sock ch uid => exact invVM_join sock ch uid h
  | leave sock ch => exact invVM_leave sock ch h
  | disc sock => exact invVM_disc sock h
  | ctrans sock ch dir fresh => exact invVM_ctrans sock ch dir fresh h

theorem invVM_run (steps : List Step) {st : SrvState} (h : invVM st.vm) :
    invVM (run st steps).vm := by
  induction steps generalizing st with
  | nil => exact h
  | cons e rest ih => exact ih (invVM_step e h)

theorem invVM_init : invVM initState.vm := by
  intro e he
  simp [initState] at he

theorem handleLeave_some {st : SrvState} {sock : String} {s : Session}
    (h : getA st.vm.userSessions sock = some s) :
    (handleLeave st sock).1.vm =
      { routers := if (delA st.vm.userSessions sock).any
            (fun e => decide (e.2.channelId = s.channelId)) then st.vm.routers
          else removeRouter st.vm.routers s.channelId
        transports := s.transports.foldl (fun m tid => delA m tid) st.vm.transports
        producers := (closeProducers st.vm.producers s.producers
          ((roomMembers st s.channelId).filter (fun r => decide (r ≠ sock)))).1
        consumers := s.consumers.foldl (fun m cid => delA m cid) st.vm.consumers
        userSessions := delA st.vm.userSessions sock } := by
  rw [handleLeave, h]

theorem handleLeave_router_dropped {st : SrvState} {sock : String} {s : Session}
    (h : getA st.vm.userSessions sock = some s)
    (h2 : ((handleLeave st sock).1.vm.userSessions.any
        (fun e => decide (e.2.channelId = s.channelId))) = false) :
    s.channelId ∉ (handleLeave st sock).1.vm.routers := by
  rw [handleLeave_some h] at h2 ⊢
  dsimp only at h2 ⊢
  rw [if_neg (by simp [h2])]
  exact not_mem_removeRouter _ _

/-- Claim C1, counterexample: a connection may re-join a different channel
without leaving (two join_voice_channel events).  Afterwards the router for
the first channel still exists while no participant session for that channel
remains, refuting the claimed equivalence between router existence and the
presence of a participant. -/
theorem C1_counterexample :
    "c1" ∈ stC1x.vm.routers ∧
      stC1x.vm.userSessions.all (fun e => decide (e.2.channelId ≠ "c1")) = true := by
  decide

/-- Claim C1 (amended): over every sequence of user_online,
join_voice_channel, leave_voice_channel, disconnect and create-transport
events, a participant session for a channel implies that the channel's router
exists, and when handleLeave leaves no session for the departing session's
channel the channel's router is closed and dropped.  The converse of the
original claim fails: a router can survive with zero sessions (see the
counterexample), and create-transport creates a router even when it then
fails for lack of a session. -/
theorem C1_router_lifecycle (steps : List Step) (sock : String) (s : Session)
    (h : getA (run initState steps).vm.userSessions sock = some s)
    (h2 : ((handleLeave (run initState steps) sock).1.vm.userSessions.any
        (fun e => decide (e.2.channelId = s.channelId))) = false) :
    s.channelId ∈ (run initState steps).vm.routers ∧
      s.channelId ∉ (handleLeave (run initState steps) sock).1.vm.routers := by
  refine ⟨invVM_run steps invVM_init (sock, s) (getA_mem h), ?_⟩
  exact handleLeave_router_dropped h h2

/-- Claim C1, witness: a single join of A to c1 creates the router, and the
subsequent handleLeave of the sole participant drops it. -/
theorem C1_witness :
    getA (run initState [Step.join "A" "c1" "uA"]).vm.userSessions "A" =
        some { userId := "uA", channelId := "c1", transports := [], producers := [],
               consumers := [] } ∧
      ("c1" ∈ (run initState [Step.join "A" "c1" "uA"]).vm.routers ∧
        "c1" ∉ (handleLeave (run initState [Step.join "A" "c1" "uA"]) "A").1.vm.routers) := by
  refine ⟨by decide, ?_⟩
  exact C1_router_lifecycle [Step.join "A" "c1" "uA"] "A"
    { userId := "uA", channelId := "c1", transports := [], producers := [], consumers := [] }
    (by decide) (by decide)

theorem produce_some {st : SrvState} {sock tid kind fresh : String}
    {t : TransportRec} {s : Session}
    (ht : getA st.vm.transports tid = some t)
    (hs : getA st.vm.userSessions sock = some s) :
    produce st sock tid kind fresh =
      ({ st with vm := { st.vm with
          producers := setA st.vm.producers fresh
            { userId := s.userId, channelId := s.channelId, kind := kind }
          userSessions := setA st.vm.userSessions sock
            { s with producers := s.producers ++ [fresh] } } },
       Ack.ok fresh,
       ((roomMembers st s.channelId).filter (fun r => decide (r ≠ sock))).map
         (fun r => Ev.newProducer r fresh s.userId)) := by
  rw [produce, ht, hs]

theorem consume_some {st : SrvState} {sock pid tid fresh : String}
    {pInfo : ProducerInfo} {t : TransportRec} {s : Session}
    (hp : getA st.vm.producers pid = some pInfo)
    (hr : pInfo.channelId ∈ st.vm.routers)
    (ht : getA st.vm.transports tid = some t)
    (hs : getA st.vm.userSessions sock = some s)
    (hTc : t.channelId = pInfo.channelId) :
    consume st sock pid tid true fresh =
      ({ st with vm := { st.vm with
          consumers := setA st.vm.consumers fresh { producerId := pid }
          userSessions := setA st.vm.userSessions sock
            { s with consumers := s.consumers ++ [fresh] } } },
       Ack.ok fresh, []) := by
  rw [consume, hp]
  dsimp only
  rw [if_pos hr, ht, hs]
  dsimp only
  rw [if_pos hTc]
  rfl

theorem consume_wrong_router {st : SrvState} {sock pid tid fresh : String}
    {pInfo : ProducerInfo} {t : TransportRec} {s : Session}
    (hp : getA st.vm.producers pid = some pInfo)
    (hr : pInfo.channelId ∈ st.vm.routers)
    (ht : getA st.vm.transports tid = some t)
    (hs : getA st.vm.userSessions sock = some s)
    (hTc : t.channelId ≠ pInfo.channelId) :
    consume st sock pid tid true fresh =
      (st, Ack.fail "Producer not on transport router", []) := by
  rw [consume, hp]
  dsimp only
  rw [if_pos hr, ht, hs]
  dsimp only
  rw [if_neg hTc]
  rfl

/-- Claim C2, counterexample: after A re-joins channel c2 without leaving c1,
A remains a member of the socket.io room of c1 although A's participant
session now records channel c2; a produce by B in c1 therefore delivers
new-producer to A, so the recipient set is not the set of participants of the
room. -/
theorem C2_counterexample :
    (produce stRejoin "B" "t1" "audio" "p1").2.2 = [Ev.newProducer "A" "p1" "uB"] ∧
      getA stRejoin.vm.userSessions "A" =
        some { userId := "uA", channelId := "c2", transports := [], producers := [],
               consumers := [] } := by
  decide

/-- Claim C2 (amended): on a successful produce, new-producer carrying the
fresh producer id and the producer's user id is emitted exactly once to every
member of the socket.io room of the producer's session channel other than the
producer itself, and to nobody else; the producer receives none.  When every
room member's session channel matches the room (the disciplined join/leave
sequence), this recipient set is exactly the other participants of the room. -/
theorem C2_new_producer_fanout (st : SrvState) (sock tid kind fresh r : String)
    (t : TransportRec) (s : Session)
    (ht : getA st.vm.transports tid = some t)
    (hs : getA st.vm.userSessions sock = some s)
    (hnd : (roomMembers st s.channelId).Nodup) :
    (produce st sock tid kind fresh).2.2.count (Ev.newProducer r fresh s.userId) =
      if r ∈ roomMembers st s.channelId ∧ r ≠ sock then 1 else 0 := by
  rw [produce_some ht hs]
  dsimp only
  rw [count_map_newProducer]
  exact count_filter_ne hnd sock r

/-- Claim C2, witness: in the re-join state, B's produce emits new-producer to
room member A exactly once. -/
theorem C2_witness :
    (produce stRejoin "B" "t1" "audio" "p1").2.2.count (Ev.newProducer "A" "p1" "uB") =
      if "A" ∈ roomMembers stRejoin "c1" ∧ "A" ≠ "B" then 1 else 0 :=
  C2_new_producer_fanout stRejoin "B" "t1" "audio" "p1" "A"
    { channelId := "c1", direction := "send", connected := false }
    { userId := "uB", channelId := "c1", transports := ["t1"], producers := [],
      consumers := [] }
    (by decide) (by decide) (by decide)

/-- Claim C3, counterexample: connection B, which owns no session and no
transport, successfully connects the transport tA created by and recorded
under A's session; the call does not fail and the foreign transport ends up
connected. -/
theorem C3_counterexample :
    (connectTransport stA "B" "tA").2 = Ack.ok () ∧
      getA (connectTransport stA "B" "tA").1.vm.transports "tA" =
        some { channelId := "c1", direction := "send", connected := true } ∧
      getA stA.vm.userSessions "B" = none ∧
      (getA stA.vm.userSessions "A").map Session.transports = some ["tA"] := by
  decide

/-- Claim C3 (amended): connect_transport performs no ownership check: for
every state and every caller it succeeds on any registered transport id,
marking that transport connected, and it fails exactly on unregistered ids,
leaving the state unchanged. -/
theorem C3_connect_no_ownership (st : SrvState) (caller tid missing : String)
    (t : TransportRec)
    (ht : getA st.vm.transports tid = some t)
    (hm : getA st.vm.transports missing = none) :
    (connectTransport st caller tid).2 = Ack.ok () ∧
      getA (connectTransport st caller tid).1.vm.transports tid =
        some { t with connected := true } ∧
      connectTransport st caller missing = (st, Ack.fail "Transport not found") := by
  refine ⟨?_, ?_, ?_⟩
  · rw [connectTransport, ht]
  · rw [connectTransport, ht]
    dsimp only
    exact getA_setA _ _ _
  · rw [connectTransport, hm]

/-- Claim C3, witness: caller B connects A's transport tA; an unknown id
fails and leaves the state unchanged. -/
theorem C3_witness :
    (connectTransport stA "B" "tA").2 = Ack.ok () ∧
      getA (connectTransport stA "B" "tA").1.vm.transports "tA" =
        some { channelId := "c1", direction := "send", connected := true } ∧
      connectTransport stA "B" "zz" = (stA, Ack.fail "Transport not found") :=
  C3_connect_no_ownership stA "B" "tA" "zz"
    { channelId := "c1", direction := "send", connected := false }
    (by decide) (by decide)

/-- Claim C4, counterexample: B's produce on A's recv transport tA succeeds
and registers a producer, and C - a participant of room c2 - successfully
consumes the room-c1 producer p1 through the recv transport tC it created on
channel c1 (the create-transport payload carries an arbitrary channel id),
registering a consumer; neither call fails or leaves the state unchanged as
the claim demands. -/
theorem C4_counterexample :
    getA stCross.vm.transports "tA" =
        some { channelId := "c1", direction := "recv", connected := false } ∧
      (getA stCross.vm.userSessions "B").map Session.transports = some [] ∧
      (produce stCross "B" "tA" "audio" "p1").2.1 = Ack.ok "p1" ∧
      getA (produce stCross "B" "tA" "audio" "p1").1.vm.producers "p1" =
        some { userId := "uB", channelId := "c1", kind := "audio" } ∧
      (getA stP4.vm.userSessions "C").map Session.channelId = some "c2" ∧
      getA stP4.vm.transports "tC" =
        some { channelId := "c1", direction := "recv", connected := false } ∧
      (consume stP4 "C" "p1" "tC" true "k1").2.1 = Ack.ok "k1" ∧
      getA (consume stP4 "C" "p1" "tC" true "k1").1.vm.consumers "k1" =
        some { producerId := "p1" } := by
  decide

/-- Claim C4 (amended): produce checks neither the transport's direction nor
its ownership: it succeeds on any registered transport for any caller with a
session.  consume never compares the producer's room with the caller's: with
the registry lookups satisfied and the router's verdict positive it succeeds
whenever the supplied transport was created on the producer's channel router
(the SFU library's own resolution), even for a caller whose session is in a
different room; a transport on a different router yields a failure ack with
the state unchanged, as does produce on an unregistered transport id. -/
theorem C4_no_guard_checks (st : SrvState)
    (sockP tidP kind freshP sockC pid tidC freshC tidM tidX : String)
    (trP : TransportRec) (sP : Session) (pInfo : ProducerInfo)
    (trC : TransportRec) (sC : Session) (trX : TransportRec)
    (htP : getA st.vm.transports tidP = some trP)
    (hsP : getA st.vm.userSessions sockP = some sP)
    (hp : getA st.vm.producers pid = some pInfo)
    (hr : pInfo.channelId ∈ st.vm.routers)
    (htC : getA st.vm.transports tidC = some trC)
    (hsC : getA st.vm.userSessions sockC = some sC)
    (hTc : trC.channelId = pInfo.channelId)
    (htX : getA st.vm.transports tidX = some trX)
    (hX : trX.channelId ≠ pInfo.channelId)
    (hm : getA st.vm.transports tidM = none) :
    (produce st sockP tidP kind freshP).2.1 = Ack.ok freshP ∧
      getA (produce st sockP tidP kind freshP).1.vm.producers freshP =
        some { userId := sP.userId, channelId := sP.channelId, kind := kind } ∧
      (consume st sockC pid tidC true freshC).2.1 = Ack.ok freshC ∧
      getA (consume st sockC pid tidC true freshC).1.vm.consumers freshC =
        some { producerId := pid } ∧
      ((consume st sockC pid tidX true freshC).1 = st ∧
        ∃ msg, (consume st sockC pid tidX true freshC).2.1 = Ack.fail msg) ∧
      produce st sockP tidM kind freshP = (st, Ack.fail "Transport not found", []) := by
  refine ⟨?_, ?_, ?_, ?_, ?_, ?_⟩
  · rw [produce_some htP hsP]
  · rw [produce_some htP hsP]
    dsimp only
    exact getA_setA _ _ _
  · rw [consume_some hp hr htC hsC hTc]
  · rw [consume_some hp hr htC hsC hTc]
    dsimp only
    exact getA_setA _ _ _
  · rw [consume_wrong_router hp hr htX hsC hX]
    exact ⟨rfl, "Producer not on transport router", rfl⟩
  · rw [produce, hm]

/-- Claim C4, witness: in stP4 all the lookups hold at once, so a second
produce on the foreign recv transport succeeds, C's cross-room consume through
its channel-c1 transport succeeds, the consume through C's channel-c2
transport fails with the state unchanged, and an unknown transport id fails
produce without touching the state. -/
theorem C4_witness :
    (produce stP4 "B" "tA" "audio" "p2").2.1 = Ack.ok "p2" ∧
      getA (produce stP4 "B" "tA" "audio" "p2").1.vm.producers "p2" =
        some { userId := "uB", channelId := "c1", kind := "audio" } ∧
      (consume stP4 "C" "p1" "tC" true "k1").2.1 = Ack.ok "k1" ∧
      getA (consume stP4 "C" "p1" "tC" true "k1").1.vm.consumers "k1" =
        some { producerId := "p1" } ∧
      ((consume stP4 "C" "p1" "tD" true "k1").1 = stP4 ∧
        ∃ msg, (consume stP4 "C" "p1" "tD" true "k1").2.1 = Ack.fail msg) ∧
      produce stP4 "B" "zz" "audio" "p2" = (stP4, Ack.fail "Transport not found", []) :=
  C4_no_guard_checks stP4 "B" "tA" "audio" "p2" "C" "p1" "tC" "k1" "zz" "tD"
    { channelId := "c1", direction := "recv", connected := false }
    { userId := "uB", channelId := "c1", transports := [], producers := ["p1"],
      consumers := [] }
    { userId := "uB", channelId := "c1", kind := "audio" }
    { channelId := "c1", direction := "recv", connected := false }
    { userId := "uC", channelId := "c2", transports := ["tC", "tD"], producers := [],
      consumers := [] }
    { channelId := "c2", direction := "recv", connected := false }
    (by decide) (by decide) (by decide) (by decide) (by decide) (by decide) (by decide)
    (by decide) (by decide) (by decide)

/-- Claim C5, counterexample: the failure ack carries the raw thrown message
"Cannot consume - incompatible codecs", not the error code
"incompatible-codecs" stated by the claim. -/
theorem C5_counterexample :
    (consume stCodec "B" "p1" "tB" false "k1").2.1 =
        Ack.fail "Cannot consume - incompatible codecs" ∧
      Ack.fail "Cannot consume - incompatible codecs" ≠
        (Ack.fail "incompatible-codecs" : Ack String) := by
  decide

/-- Claim C5 (amended): when the router reports the given capabilities unable
to consume the producer, consume replies success false with error message
"Cannot consume - incompatible codecs", creates and stores no consumer, emits
nothing, and returns the state unchanged, so the caller's session is intact. -/
theorem C5_incompatible_codecs (st : SrvState) (sock pid tid fresh : String)
    (pInfo : ProducerInfo) (t : TransportRec) (s : Session)
    (hp : getA st.vm.producers pid = some pInfo)
    (hr : pInfo.channelId ∈ st.vm.routers)
    (ht : getA st.vm.transports tid = some t)
    (hs : getA st.vm.userSessions sock = some s) :
    consume st sock pid tid false fresh =
      (st, Ack.fail "Cannot consume - incompatible codecs", []) := by
  rw [consume, hp]
  dsimp only
  rw [if_pos hr, ht, hs]
  rfl

/-- Claim C5, witness: B's consume of p1 with an incompatible verdict fails
with the message above and leaves the state untouched. -/
theorem C5_witness :
    consume stCodec "B" "p1" "tB" false "k1" =
      (stCodec, Ack.fail "Cannot consume - incompatible codecs", []) :=
  C5_incompatible_codecs stCodec "B" "p1" "tB" "k1"
    { userId := "uA", channelId := "c1", kind := "audio" }
    { channelId := "c1", direction := "recv", connected := false }
    { userId := "uB", channelId := "c1", transports := ["tB"], producers := [],
      consumers := [] }
    (by decide) (by decide) (by decide) (by decide)

theorem mem_delA_ne {α : Type} {m : List (String × α)} {k : String} {e : String × α}
    (h : e ∈ delA m k) : e.1 ≠ k := by
  induction m with
  | nil => simp [delA] at h
  | cons f rest ih =>
    by_cases hf : f.1 = k
    · rw [delA, if_pos hf] at h
      exact ih h
    · rw [delA, if_neg hf] at h
      rcases List.mem_cons.mp h with h1 | h1
      · exact h1 ▸ hf
      · exact ih h1

theorem hasA_of_mem {α : Type} {m : List (String × α)} {e : String × α}
    (h : e ∈ m) : hasA m e.1 = true := by
  induction m with
  | nil => simp at h
  | cons f rest ih =>
    rcases List.mem_cons.mp h with h1 | h1
    · subst h1
      simp [hasA, getA]
    · by_cases hf : f.1 = e.1
      · simp [hasA, getA, hf]
      · simpa [hasA, getA, hf] using ih h1

theorem closeProducers_aux (pids : List String) (recips : List String)
    (acc : List (String × ProducerInfo) × List Ev)
    (hacc : ∀ e ∈ acc.2, ∃ r pid, e = Ev.producerClosed r pid) :
    ∀ e ∈ (pids.foldl (fun acc pid =>
      match getA acc.1 pid with
      | some _ => (delA acc.1 pid, acc.2 ++ recips.map (fun r => Ev.producerClosed r pid))
      | none => acc) acc).2, ∃ r pid2, e = Ev.producerClosed r pid2 := by
  induction pids generalizing acc with
  | nil => exact hacc
  | cons pid rest ih =>
    rw [List.foldl_cons]
    apply ih
    cases hg : getA acc.1 pid with
    | none =>
      intro e he
      simp only [hg] at he
      exact hacc e he
    | some _ =>
      intro e he
      simp only [hg] at he
      rcases List.mem_append.mp he with h1 | h1
      · exact hacc e h1
      · rcases List.mem_map.mp h1 with ⟨r, hr, hre⟩
        exact ⟨r, pid, hre.symm⟩

theorem closeProducers_events (producers : List (String × ProducerInfo))
    (pids recips : List String) :
    ∀ e ∈ (closeProducers producers pids recips).2,
      ∃ r pid, e = Ev.producerClosed r pid := by
  rw [closeProducers]
  exact closeProducers_aux pids recips (producers, []) (by simp)

theorem handleLeave_events {st : SrvState} {sock : String} {ev : Ev}
    (h : ev ∈ (handleLeave st sock).2) : ∃ r pid, ev = Ev.producerClosed r pid := by
  rw [handleLeave] at h
  split at h
  · simp at h
  · exact closeProducers_events _ _ _ ev h

theorem leave_events (st : SrvState) (sock ch : String) :
    (leaveVoiceChannel st sock ch).2 =
      (leaveIndex st.voiceChannelUsers sock ch).2 ++
        (handleLeave
          { st with
            sioRooms := sioLeave st.sioRooms sock ch
            voiceChannelUsers := (leaveIndex st.voiceChannelUsers sock ch).1 } sock).2 :=
  rfl

theorem leaveIndex_empty {idx : List (String × List (String × String))}
    {sock ch : String} {m : List (String × String)}
    (h : getA idx ch = some m) (he : delA m sock = []) :
    leaveIndex idx sock ch =
      (delA idx ch, (delA idx ch).map (fun e => Ev.voiceUpdate e.1 e.2) ++
        [Ev.voiceUpdate ch []]) := by
  rw [leaveIndex, h]
  dsimp only
  rw [if_pos he]
  simp [hasA_delA]

theorem disc_voiceUpdate_mem {st : SrvState} {sock ch2 : String}
    {us : List (String × String)}
    (h : Ev.voiceUpdate ch2 us ∈ (disconnect st sock).2) :
    hasA (disconnect st sock).1.voiceChannelUsers ch2 = true := by
  simp only [disconnect] at h ⊢
  rcases List.mem_cons.mp h with h1 | h1
  · cases h1
  · rcases List.mem_append.mp h1 with h2 | h2
    · rcases handleLeave_events h2 with ⟨r, pid, hre⟩
      cases hre
    · rcases List.mem_map.mp h2 with ⟨e, he, hre⟩
      injection hre with hk hv
      exact hk ▸ hasA_of_mem he

/-- Claim C6, counterexample: A is online and alone in channel c1; on A's
disconnect the channel becomes empty and is dropped from the index, yet the
disconnect handler emits no empty-array voice_channel_users_update for it,
unlike the leave handler. -/
theorem C6_counterexample :
    getA stSolo.voiceChannelUsers "c1" = some [("A", "uA")] ∧
      (disconnect stSolo "A").2.count (Ev.voiceUpdate "c1" []) = 0 ∧
      hasA (disconnect stSolo "A").1.voiceChannelUsers "c1" = false := by
  decide

/-- Claim C6 (amended): a leave_voice_channel that empties an indexed channel
broadcasts the snapshots and emits the empty-array update for that channel
exactly once, dropping it from the index; a disconnect never emits a
voice_channel_users_update for a channel that is no longer indexed afterwards,
so an emptied channel gets no empty-array update on disconnect. -/
theorem C6_empty_channel_update (st : SrvState) (sock ch : String)
    (m : List (String × String))
    (h : getA st.voiceChannelUsers ch = some m)
    (he : delA m sock = []) :
    (leaveVoiceChannel st sock ch).2.count (Ev.voiceUpdate ch []) = 1 ∧
      hasA (leaveVoiceChannel st sock ch).1.voiceChannelUsers ch = false ∧
      (∀ ch2 us, Ev.voiceUpdate ch2 us ∈ (disconnect st sock).2 →
        hasA (disconnect st sock).1.voiceChannelUsers ch2 = true) := by
  refine ⟨?_, ?_, fun ch2 us hm => disc_voiceUpdate_mem hm⟩
  · rw [leave_events st sock ch, leaveIndex_empty h he, List.count_append,
      List.count_append]
    have c1 : ((delA st.voiceChannelUsers ch).map
        (fun e => Ev.voiceUpdate e.1 e.2)).count (Ev.voiceUpdate ch []) = 0 := by
      refine List.count_eq_zero.mpr (fun hc => ?_)
      rcases List.mem_map.mp hc with ⟨e, he2, hre⟩
      injection hre with hk hv
      exact mem_delA_ne he2 hk
    have c3 : ((handleLeave
        { st with
          sioRooms := sioLeave st.sioRooms sock ch
          voiceChannelUsers := (delA st.voiceChannelUsers ch,
            (delA st.voiceChannelUsers ch).map (fun e => Ev.voiceUpdate e.1 e.2) ++
              [Ev.voiceUpdate ch []]).1 } sock).2).count (Ev.voiceUpdate ch []) = 0 := by
      refine List.count_eq_zero.mpr (fun hc => ?_)
      rcases handleLeave_events hc with ⟨r, pid, hre⟩
      cases hre
    rw [c1, c3]
    simp
  · rw [leave_voiceChannelUsers]
    have e1 : (leaveIndex st.voiceChannelUsers sock ch).1 =
        delA st.voiceChannelUsers ch := by
      rw [leaveIndex_empty h he]
    rw [e1]
    exact hasA_delA _ _

/-- Claim C6, witness: with A in c1 and C in c2, A's leave empties c1, emits
its empty-array update once and drops it; the conclusions of the amended
theorem hold at this state. -/
theorem C6_witness :
    (leaveVoiceChannel stTwoCh "A" "c1").2.count (Ev.voiceUpdate "c1" []) = 1 ∧
      hasA (leaveVoiceChannel stTwoCh "A" "c1").1.voiceChannelUsers "c1" = false ∧
      (∀ ch2 us, Ev.voiceUpdate ch2 us ∈ (disconnect stTwoCh "A").2 →
        hasA (disconnect stTwoCh "A").1.voiceChannelUsers ch2 = true) :=
  C6_empty_channel_update stTwoCh "A" "c1" [("A", "uA")] (by decide) (by decide)

/-- Claim C7, counterexample: A joined c1 and created transport tA; a second
join_voice_channel of A to the same channel overwrites the session with a
fresh one, wiping the recorded transport list, so the orchestrator state is
not left unchanged. -/
theorem C7_counterexample :
    getA stA.vm.userSessions "A" =
        some { userId := "uA", channelId := "c1", transports := ["tA"], producers := [],
               consumers := [] } ∧
      getA (joinVoiceChannel stA "A" "c1" "uA").1.vm.userSessions "A" =
        some { userId := "uA", channelId := "c1", transports := [], producers := [],
               consumers := [] } := by
  decide

/-- Claim C7 (amended): a repeated join with the same (connection, channel)
leaves the global registries (routers, transports, producers, consumers)
unchanged but resets the session's recorded transports, producers and
consumers to empty arrays; it is a no-op on the orchestrator state exactly
when the session records no resources. -/
theorem C7_rejoin_resets_session (st : SrvState) (sock ch uid : String)
    (ts ps cs : List String)
    (h : getA st.vm.userSessions sock =
      some { userId := uid, channelId := ch, transports := ts, producers := ps,
             consumers := cs })
    (hr : ch ∈ st.vm.routers)
    (hnd : (st.vm.userSessions.map Prod.fst).Nodup) :
    (joinVoiceChannel st sock ch uid).1.vm.routers = st.vm.routers ∧
      (joinVoiceChannel st sock ch uid).1.vm.transports = st.vm.transports ∧
      (joinVoiceChannel st sock ch uid).1.vm.producers = st.vm.producers ∧
      (joinVoiceChannel st sock ch uid).1.vm.consumers = st.vm.consumers ∧
      getA (joinVoiceChannel st sock ch uid).1.vm.userSessions sock =
        some { userId := uid, channelId := ch, transports := [], producers := [],
               consumers := [] } ∧
      (ts = [] → ps = [] → cs = [] → (joinVoiceChannel st sock ch uid).1.vm = st.vm) := by
  rw [join_vm]
  dsimp only
  refine ⟨ensureRouter_of_mem hr, rfl, rfl, rfl, getA_setA _ _ _, ?_⟩
  rintro rfl rfl rfl
  rw [ensureRouter_of_mem hr, setA_eq_of_getA hnd h]

/-- Claim C7, witness: joining again right after a bare join (no resources
recorded) leaves the orchestrator state unchanged. -/
theorem C7_witness :
    (joinVoiceChannel stJ1 "A" "c1" "uA").1.vm.routers = stJ1.vm.routers ∧
      (joinVoiceChannel stJ1 "A" "c1" "uA").1.vm.transports = stJ1.vm.transports ∧
      (joinVoiceChannel stJ1 "A" "c1" "uA").1.vm.producers = stJ1.vm.producers ∧
      (joinVoiceChannel stJ1 "A" "c1" "uA").1.vm.consumers = stJ1.vm.consumers ∧
      getA (joinVoiceChannel stJ1 "A" "c1" "uA").1.vm.userSessions "A" =
        some { userId := "uA", channelId := "c1", transports := [], producers := [],
               consumers := [] } ∧
      (([] : List String) = [] → ([] : List String) = [] → ([] : List String) = [] →
        (joinVoiceChannel stJ1 "A" "c1" "uA").1.vm = stJ1.vm) :=
  C7_rejoin_resets_session stJ1 "A" "c1" "uA" [] [] []
    (by decide) (by decide) (by decide)

/-- Claim C8: leave is idempotent on the server state: a second
leave_voice_channel from the same connection is a state no-op, and a
leave_voice_channel arriving after the disconnect cleanup has already run is
also a state no-op (for states whose registries are well formed, i.e. unique
map keys and no indexed channel left empty by the disconnect sweep). -/
theorem C8_leave_idempotent (st : SrvState) (sock ch : String)
    (hndR : (st.sioRooms.map Prod.fst).Nodup)
    (hndI : (st.voiceChannelUsers.map Prod.fst).Nodup)
    (hne : getA (disconnect st sock).1.voiceChannelUsers ch ≠ some []) :
    (leaveVoiceChannel (leaveVoiceChannel st sock ch).1 sock ch).1 =
        (leaveVoiceChannel st sock ch).1 ∧
      (leaveVoiceChannel (disconnect st sock).1 sock ch).1 = (disconnect st sock).1 :=
  ⟨leave_leave st sock ch, leave_noop_after_disc st sock ch hndR hndI hne⟩

/-- Claim C8, witness: with A and B sharing c1, a double leave of A and a
leave of A after A's disconnect both leave the state fixed. -/
theorem C8_witness :
    (leaveVoiceChannel (leaveVoiceChannel stShared "A" "c1").1 "A" "c1").1 =
        (leaveVoiceChannel stShared "A" "c1").1 ∧
      (leaveVoiceChannel (disconnect stShared "A").1 "A" "c1").1 =
        (disconnect stShared "A").1 :=
  C8_leave_idempotent stShared "A" "c1" (by decide) (by decide) (by decide)

/-- Claim C9: login is idempotent per username: two successive logins with
the same (present, non-empty) username both return status 200 and the same
user id, the second call leaves the persisted store unchanged, and a login
with a missing username returns 400 without modifying the store. -/
theorem C9_login_idempotent (users : List UserRec) (u f1 f2 : String)
    (hu : u ≠ "") :
    (login users (some u) f1).1 = 200 ∧
      (login (login users (some u) f1).2.2 (some u) f2).1 = 200 ∧
      ((login (login users (some u) f1).2.2 (some u) f2).2.1.map UserRec.id) =
        ((login users (some u) f1).2.1.map UserRec.id) ∧
      (login (login users (some u) f1).2.2 (some u) f2).2.2 =
        (login users (some u) f1).2.2 ∧
      login users none f1 = (400, none, users) := by
  refine ?_
  cases hf : users.find? (fun x => decide (x.username = u)) with
  | some x =>
    have e1 : login users (some u) f1 = (200, some x, users) := by
      rw [login, if_neg hu, hf]
    rw [e1]
    have e2 : login users (some u) f2 = (200, some x, users) := by
      rw [login, if_neg hu, hf]
    rw [e2]
    exact ⟨rfl, rfl, rfl, rfl, rfl⟩
  | none =>
    have e1 : login users (some u) f1 =
        (200, some { id := f1, username := u },
         users ++ [{ id := f1, username := u }]) := by
      rw [login, if_neg hu, hf]
    rw [e1]
    have hf2 : (users ++ [({ id := f1, username := u } : UserRec)]).find?
        (fun x => decide (x.username = u)) = some { id := f1, username := u } := by
      rw [List.find?_append, hf]
      simp
    have e2 : login (users ++ [{ id := f1, username := u }]) (some u) f2 =
        (200, some { id := f1, username := u },
         users ++ [{ id := f1, username := u }]) := by
      rw [login, if_neg hu, hf2]
    rw [e2]
    exact ⟨rfl, rfl, rfl, rfl, rfl⟩

/-- Claim C9, witness: logging in twice as alice on an empty store returns the
same user id, keeps the store fixed on the second call, and a missing
username is rejected with 400. -/
theorem C9_witness :
    (login [] (some "alice") "f1").1 = 200 ∧
      (login (login [] (some "alice") "f1").2.2 (some "alice") "f2").1 = 200 ∧
      ((login (login [] (some "alice") "f1").2.2 (some "alice") "f2").2.1.map
          UserRec.id) = ((login [] (some "alice") "f1").2.1.map UserRec.id) ∧
      (login (login [] (some "alice") "f1").2.2 (some "alice") "f2").2.2 =
        (login [] (some "alice") "f1").2.2 ∧
      login [] none "f1" = (400, none, []) :=
  C9_login_idempotent [] "alice" "f1" "f2" (by decide)

/-- Claim C10: a join_voice_channel from a connection that never sent
user_online still creates the SFU session and emits router-rtp-capabilities
followed by existing-producers to that socket, but the connection is not
added to any channel of the membership index (its memberships are exactly as
before) and the join emits no voice_channel_users_update broadcast. -/
theorem C10_join_without_online (st : SrvState) (sock ch uid : String)
    (h : getA st.onlineUsers sock = none)
    (h2 : ∀ e ∈ st.voiceChannelUsers, hasA e.2 sock = false) :
    getA (joinVoiceChannel st sock ch uid).1.vm.userSessions sock =
        some { userId := uid, channelId := ch, transports := [], producers := [],
               consumers := [] } ∧
      (joinVoiceChannel st sock ch uid).2 =
        [Ev.routerRtpCapabilities sock,
         Ev.existingProducers sock (st.vm.producers.filterMap
           (fun e => if e.2.channelId = ch then some (e.1, e.2.userId) else none))] ∧
      (∀ e ∈ (joinVoiceChannel st sock ch uid).1.voiceChannelUsers,
        hasA e.2 sock = false) ∧
      (∀ ch2 us, Ev.voiceUpdate ch2 us ∉ (joinVoiceChannel st sock ch uid).2) := by
  have hev : joinVoiceChannel st sock ch uid =
      ((handleJoinChannel
        { st with
          sioRooms := sioJoin st.sioRooms sock ch
          voiceChannelUsers :=
            if hasA st.voiceChannelUsers ch then st.voiceChannelUsers
            else setA st.voiceChannelUsers ch [] } sock ch uid).1,
       [] ++ (handleJoinChannel
        { st with
          sioRooms := sioJoin st.sioRooms sock ch
          voiceChannelUsers :=
            if hasA st.voiceChannelUsers ch then st.voiceChannelUsers
            else setA st.voiceChannelUsers ch [] } sock ch uid).2) := by
    rw [joinVoiceChannel, h]
  rw [hev, handleJoinChannel]
  dsimp only
  refine ⟨getA_setA _ _ _, rfl, ?_, ?_⟩
  · intro e he
    by_cases hch : hasA st.voiceChannelUsers ch
    · rw [if_pos hch] at he
      exact h2 e he
    · rw [if_neg hch] at he
      rcases mem_setA he with h1 | h1
      · exact h2 e h1
      · subst h1
        rfl
  · intro ch2 us hm
    rcases List.mem_cons.mp hm with h1 | h1
    · cases h1
    · rcases List.mem_cons.mp h1 with h3 | h3
      · cases h3
      · simp at h3

/-- Claim C10, witness: on the empty server a join by the offline socket A
creates the session, emits exactly the two setup events, adds A to no index
channel and broadcasts no membership update. -/
theorem C10_witness :
    getA (joinVoiceChannel initState "A" "c1" "uA").1.vm.userSessions "A" =
        some { userId := "uA", channelId := "c1", transports := [], producers := [],
               consumers := [] } ∧
      (joinVoiceChannel initState "A" "c1" "uA").2 =
        [Ev.routerRtpCapabilities "A",
         Ev.existingProducers "A" (initState.vm.producers.filterMap
           (fun e => if e.2.channelId = "c1" then some (e.1, e.2.userId) else none))] ∧
      (∀ e ∈ (joinVoiceChannel initState "A" "c1" "uA").1.voiceChannelUsers,
        hasA e.2 "A" = false) ∧
      (∀ ch2 us, Ev.voiceUpdate ch2 us ∉ (joinVoiceChannel initState "A" "c1" "uA").2) :=
  C10_join_without_online initState "A" "c1" "uA" (by decide) (by simp [initState])

end DC
